import Mathlib

/-!
Verification of the JDBC read-partitioning planner (Oracle engine) of this
repository: a shallow embedding of `util/jdbc/engines/oracle_input_manager.py`
together with the spec-described partition-count algorithm of the common
interface, and theorems settling the frozen claims about them.

Python numeric values (int, float, decimal.Decimal, datetime.datetime) are
modelled by the inductive `PyVal`; a numeric value carries its exact rational
value.  Fallible Python code (code that may raise) returns `Except PyError`.
The database behind the SQLAlchemy connection is modelled as explicit state
(`OracleDB`): each catalog query the manager issues is a field giving that
query's result.
-/

/-- A Python runtime value as the input manager sees it: an `int`, a `float`
(carried by its exact rational value), a `decimal.Decimal`, or a
`datetime.datetime` (year, month, day). -/
inductive PyVal where
  | int (n : ℤ)
  | float (q : ℚ)
  | decimal (q : ℚ)
  | datetime (year month day : ℕ)
deriving DecidableEq, Repr

/-- The exact numeric value of a `PyVal`, or `none` for a non-numeric
(datetime) value. -/
def PyVal.toRat : PyVal → Option ℚ
  | .int n => some (n : ℚ)
  | .float q => some q
  | .decimal q => some q
  | .datetime _ _ _ => none

/-- Exceptions raised by the input manager.  `notSupported` models the
`NotImplementedError` the tests observe (the spec's `NotSupportedError`);
`jdbcInputManagerException` models `JDBCInputManagerException` (the spec's
`SchemaNotFoundError` when raised from schema resolution). -/
inductive PyError where
  | notSupported
  | jdbcInputManagerException (msg : String)
deriving DecidableEq, Repr

/-- Modelled from the spec: `_read_partitioning_num_partitions` is defined in
`util/jdbc/jdbc_input_manager_interface.py`, a file that is not among the
repository files given (only its tests in
`test/util/test_jdbc_input_manager.py` and its caller in
`engines/oracle_input_manager.py` are).  Spec §4.6: the partition count is
defined only for numeric domains — integer, floating-point and
arbitrary-precision decimal — and any other domain (e.g. date/time) fails with
`NotSupportedError`; for numeric operands the result is `ceil((hi-lo)/stride)`
with a floor of 1 partition, with mixed numeric subtypes promoted to a common
arbitrary-precision representation before the division. -/
def readPartitioningNumPartitions (lo hi stride : PyVal) : Except PyError ℤ :=
  match lo.toRat, hi.toRat, stride.toRat with
  | some l, some h, some s => .ok (max 1 ⌈(h - l) / s⌉)
  | _, _, _ => .error .notSupported

/-- Does the character list `l` start with the character list `p`?  (List-level
counterpart of the `str.startswith` tests in `_normalise_oracle_data_type`,
kept kernel-computable.) -/
def startsWithChars : List Char → List Char → Bool
  | _, [] => true
  | [], _ :: _ => false
  | c :: cs, p :: ps => c = p && startsWithChars cs ps

/-- One left-to-right pass of `re.sub(r"\([0-9]\)", r"", ...)`: every
non-overlapping occurrence of `(`, one ASCII digit, `)` is removed, scanning
from the left and resuming after each removed match. -/
def stripDigitParens : List Char → List Char
  | a :: b :: c :: rest =>
    if a = '(' ∧ b.isDigit ∧ c = ')' then stripDigitParens rest
    else a :: stripDigitParens (b :: c :: rest)
  | l => l

/-- Is there an occurrence of `(`, one ASCII digit, `)` in the character
list?  (The regex `\([0-9]\)` matches somewhere.) -/
def hasDigitParen : List Char → Bool
  | a :: b :: c :: rest =>
    (a = '(' && b.isDigit && c = ')') || hasDigitParen (b :: c :: rest)
  | _ => false

/-- Embedding of `OracleInputManager._normalise_oracle_data_type`: a type string starting
with `TIMESTAMP` or `INTERVAL DAY` has every `(<digit>)` qualifier removed by
`re.sub(r"\([0-9]\)", r"", data_type)`; any other string is returned
unchanged. -/
def normaliseOracleDataType (dataType : String) : String :=
  if startsWithChars dataType.data "TIMESTAMP".data
      || startsWithChars dataType.data "INTERVAL DAY".data then
    String.mk (stripDigitParens dataType.data)
  else dataType

/-- Lookup in a Python dict modelled as an insertion-ordered association
list: the value at the first (unique) matching key. -/
def dictGet {α : Type} : List (String × α) → String → Option α
  | [], _ => none
  | (k, v) :: rest, t => if k = t then some v else dictGet rest t

/-- Python `d[k] = v` on a dict modelled as an insertion-ordered association
list: overwrite the existing entry, or append a new one. -/
def pyDictInsert {α : Type} : List (String × α) → String → α → List (String × α)
  | [], k, v => [(k, v)]
  | (k', v') :: rest, k, v =>
    if k' = k then (k', v) :: rest else (k', v') :: pyDictInsert rest k v

/-- Stable ascending insertion of a string into a list (ties keep the new
element before later equals is irrelevant here; only ordering matters). -/
def orderedInsert (a : String) : List String → List String
  | [] => [a]
  | b :: rest => if b < a then b :: orderedInsert a rest else a :: b :: rest

/-- Ascending sort of a string list, modelling SQL `ORDER BY username`. -/
def sortStrings : List String → List String
  | [] => []
  | a :: rest => orderedInsert a (sortStrings rest)

/-- ASCII upper-casing of a string, modelling Oracle's `UPPER` on identifier
strings (kept kernel-computable, unlike `String.toUpper`). -/
def upperStr (s : String) : String := String.mk (s.data.map Char.toUpper)

/-- The state of the Oracle database behind the SQLAlchemy connection, one
field per catalog query the input manager issues.  `pkColumns t` is the result
column of the enabled-primary-key query of `_get_primary_keys` for table `t`
(already in its SQL `ORDER BY cols.position` order); `columnType t c` the
`data_type` row of `_get_column_data_type`; `minRow`/`maxRow` the scalar
`fetchone` results of the MIN/MAX queries (`none` = no row); `tableCount t`
the row count `_get_table_count` reports; `allUsers` the `all_users` rows and
`currentUser` the `SELECT USER FROM dual` result used by
`_normalise_schema_filter`. -/
structure OracleDB where
  tableCount : String → ℤ
  pkColumns : String → List String
  columnType : String → String → Option String
  minRow : String → String → Option PyVal
  maxRow : String → String → Option PyVal
  allUsers : List String
  currentUser : String

/-- Embedding of `OracleInputManager._get_column_data_type`: fetch the catalog `data_type`
row for (table, column) and pass it through `_normalise_oracle_data_type`;
a missing row (`fetchone() -> None`) is returned as the absent marker. -/
def getColumnDataType (db : OracleDB) (table column : String) : Option String :=
  (db.columnType table column).map normaliseOracleDataType

/-- Embedding of `OracleInputManager._get_primary_keys`: start from
`{t: None for t in table_list}` and then, for each table of the list whose
enabled-primary-key query returns rows, overwrite its entry with the list of
key columns (ordered by key position). -/
def getPrimaryKeys (db : OracleDB) (tableList : List String) :
    List (String × Option (List String)) :=
  let init := tableList.foldl (fun d t => pyDictInsert d t none) []
  tableList.foldl
    (fun d t =>
      if db.pkColumns t ≠ [] then pyDictInsert d t (some (db.pkColumns t)) else d)
    init

/-- The read-options dictionary `_define_read_partitioning` returns: Spark
partition column, partition count, lower/upper bounds and the informational
comment. -/
structure PartitionPlan where
  partitionColumn : String
  numPartitions : ℤ
  lowerBound : PyVal
  upperBound : PyVal
  comment : String
deriving DecidableEq, Repr

/-- Embedding of `OracleInputManager._define_read_partitioning`: if the table's row count
exceeds the threshold, and `get_primary_keys().get(table)` is truthy (a
non-empty column list), and the first key column's normalised data type is
`NUMBER`, and both the MIN and the MAX query return a row, emit the plan whose
partition count is `_read_partitioning_num_partitions(min, max, threshold)`;
in every other case return `None`.  An exception raised by the partition-count
algorithm propagates. -/
def defineReadPartitioning (db : OracleDB) (tableList : List String)
    (table : String) (rowCountThreshold : ℤ) : Except PyError (Option PartitionPlan) :=
  let rowCount := db.tableCount table
  if rowCount > rowCountThreshold then
    match (dictGet (getPrimaryKeys db tableList) table).join with
    | some (column :: _) =>
      match getColumnDataType db table column with
      | some columnDatatype =>
        if columnDatatype = "NUMBER" then
          match db.minRow table column, db.maxRow table column with
          | some lowerbound, some upperbound =>
            (readPartitioningNumPartitions lowerbound upperbound
                (.int rowCountThreshold)).bind
              (fun numPartitions => .ok (some
                { partitionColumn := column
                  numPartitions := numPartitions
                  lowerBound := lowerbound
                  upperBound := upperbound
                  comment :=
                    "Partitioning by " ++ columnDatatype ++ " primary key column" }))
          | _, _ => .ok none
        else .ok none
      | none => .ok none
    | _ => .ok none
  else .ok none

/-- Embedding of `OracleInputManager._enclose_identifier`: `ch = ch or '"'` then
`f"{ch}{identifier}{ch}"`.  The optional argument is `none` when omitted; the
Python `or` falls back to `"` for `None` and for the empty string. -/
def encloseIdentifier (identifier : String) (ch : Option String := none) : String :=
  let c := match ch with
    | some s => if s = "" then "\"" else s
    | none => "\""
  c ++ identifier ++ c

/-- Embedding of `OracleInputManager._qualified_name`: `"schema"."table"` when `enclosed`,
else `schema.table`. -/
def qualifiedName (schema table : String) (enclosed : Bool := false) : String :=
  if enclosed then
    encloseIdentifier schema (some "\"") ++ "." ++ encloseIdentifier table (some "\"")
  else schema ++ "." ++ table

/-- Embedding of `OracleInputManager._normalise_schema_filter`: a truthy filter is matched
case-insensitively (`UPPER(username) = UPPER(:b1)`) against `all_users` with
`ORDER BY username` and `fetchone()` taking the first match; no match raises
`JDBCInputManagerException`.  A falsy filter (absent or empty) resolves to
`SELECT USER FROM dual`, the connected user. -/
def normaliseSchemaFilter (db : OracleDB) (schemaFilter : Option String) :
    Except PyError String :=
  match schemaFilter with
  | some s =>
    if s = "" then .ok db.currentUser
    else
      match (sortStrings
          (db.allUsers.filter (fun u => upperStr u = upperStr s))).head? with
      | some u => .ok u
      | none => .error (.jdbcInputManagerException
          ("Schema filter does not match any Oracle schemas: " ++ s))
  | none => .ok db.currentUser

/-- A concrete database state for evaluating the theorems: table `T1` has 42
rows, an enabled two-column primary key `(ID, C2)` with `ID` of type `NUMBER`
and value range 1..100; every other table has 5 rows and no primary key.  The
known users are `Alice` and `BOB`, the connected user is `BOB`. -/
def dbNumericPk : OracleDB where
  tableCount := fun t => if t = "T1" then 42 else 5
  pkColumns := fun t => if t = "T1" then ["ID", "C2"] else []
  columnType := fun t c => if t = "T1" ∧ c = "ID" then some "NUMBER" else none
  minRow := fun t c => if t = "T1" ∧ c = "ID" then some (.int 1) else none
  maxRow := fun t c => if t = "T1" ∧ c = "ID" then some (.int 100) else none
  allUsers := ["Alice", "BOB"]
  currentUser := "BOB"

/-- A concrete database state whose table `T1` is large but has a text
(`VARCHAR2`) primary-key column `NAME`. -/
def dbTextPk : OracleDB where
  tableCount := fun t => if t = "T1" then 100 else 0
  pkColumns := fun t => if t = "T1" then ["NAME"] else []
  columnType := fun t c => if t = "T1" ∧ c = "NAME" then some "VARCHAR2" else none
  minRow := fun _ _ => none
  maxRow := fun _ _ => none
  allUsers := []
  currentUser := "SYS"

/-- A character list with no occurrence of the `(<digit>)` pattern is left
unchanged by the regex substitution. -/
theorem stripDigitParens_of_not_has (l : List Char) (h : hasDigitParen l = false) :
    stripDigitParens l = l := by
  induction l with
  | nil => rfl
  | cons a t ih =>
    rcases t with _ | ⟨b, t2⟩
    · rfl
    rcases t2 with _ | ⟨c, rest⟩
    · rfl
    rw [hasDigitParen, Bool.or_eq_false_iff] at h
    rw [stripDigitParens]
    split
    · rename_i hcond
      simp [hcond.1, hcond.2.1, hcond.2.2] at h
    · rw [ih h.2]

/-- C1: for every numeric `lo`, `hi` and numeric `stride > 0`,
`_read_partitioning_num_partitions(lo, hi, stride)` returns
`ceil((hi - lo) / stride)` with a floor of 1; the result is at least 1, and it
is the same for any operands of any numeric subtypes (int, float, Decimal,
mixed) carrying the same numeric values. -/
theorem readPartitioningNumPartitions_numeric (lo hi stride : PyVal) (l h s : ℚ)
    (hlo : lo.toRat = some l) (hhi : hi.toRat = some h)
    (hst : stride.toRat = some s) (hs : 0 < s) :
    readPartitioningNumPartitions lo hi stride = .ok (max 1 ⌈(h - l) / s⌉)
    ∧ (∀ n : ℤ, readPartitioningNumPartitions lo hi stride = .ok n → 1 ≤ n)
    ∧ (∀ lo' hi' stride' : PyVal, lo'.toRat = some l → hi'.toRat = some h →
        stride'.toRat = some s →
        readPartitioningNumPartitions lo' hi' stride' =
          readPartitioningNumPartitions lo hi stride) := by
  have key : ∀ (a b c : PyVal), a.toRat = some l → b.toRat = some h →
      c.toRat = some s →
      readPartitioningNumPartitions a b c = .ok (max 1 ⌈(h - l) / s⌉) := by
    intro a b c ha hb hc
    unfold readPartitioningNumPartitions
    rw [ha, hb, hc]
  refine ⟨key lo hi stride hlo hhi hst, ?_, ?_⟩
  · intro n hn
    rw [key lo hi stride hlo hhi hst] at hn
    injection hn with hn
    rw [← hn]
    exact le_max_left 1 _
  · intro lo' hi' stride' h1 h2 h3
    rw [key _ _ _ h1 h2 h3, key _ _ _ hlo hhi hst]

/-- C1 witness: the arbitrary-precision example of the tests,
`lo = Decimal(1)`, `hi = Decimal(9_999_999_999_999_999_999)`,
`stride = Decimal(1_000_000_000_000_000_000)`, yields exactly 10. -/
theorem readPartitioningNumPartitions_numeric_witness :
    readPartitioningNumPartitions (.decimal 1) (.decimal 9999999999999999999)
      (.decimal 1000000000000000000) = .ok 10 := by
  have h := readPartitioningNumPartitions_numeric (.decimal 1)
    (.decimal 9999999999999999999) (.decimal 1000000000000000000)
    1 9999999999999999999 1000000000000000000 rfl rfl rfl (by norm_num)
  rw [h.1]
  have hceil : (⌈((9999999999999999999 : ℚ) - 1) / 1000000000000000000⌉ : ℤ) = 10 := by
    rw [Int.ceil_eq_iff]
    constructor <;> norm_num
  rw [hceil]
  norm_num

/-- C4: on any non-numeric operand — in particular any datetime lower or upper
bound — `_read_partitioning_num_partitions` raises the not-supported error
(`NotImplementedError` in the tests, the spec's `NotSupportedError`) instead of
returning a count. -/
theorem readPartitioningNumPartitions_nonNumeric (lo hi stride : PyVal)
    (hn : lo.toRat = none ∨ hi.toRat = none ∨ stride.toRat = none) :
    readPartitioningNumPartitions lo hi stride = .error .notSupported := by
  unfold readPartitioningNumPartitions
  rcases hl : lo.toRat with _ | l <;> rcases hh : hi.toRat with _ | h <;>
    rcases hs : stride.toRat with _ | s <;> simp_all

/-- C4 witness: the datetime range of the tests,
`lo = datetime(2020, 1, 1)`, `hi = datetime(2020, 1, 20)`, `stride = 2`,
raises. -/
theorem readPartitioningNumPartitions_nonNumeric_witness :
    readPartitioningNumPartitions (.datetime 2020 1 1) (.datetime 2020 1 20)
      (.int 2) = .error .notSupported :=
  readPartitioningNumPartitions_nonNumeric _ _ _ (Or.inl rfl)

/-- C7: `_normalise_oracle_data_type` strips every `(<digit>)` qualifier (by
the left-to-right regex substitution `stripDigitParens`) from a string starting
with `TIMESTAMP` or `INTERVAL DAY`, and returns every other string unchanged;
in particular `TIMESTAMP(3) WITH TIME ZONE ↦ TIMESTAMP WITH TIME ZONE` and
`INTERVAL DAY(5) TO SECOND(1) ↦ INTERVAL DAY TO SECOND`. -/
theorem normaliseOracleDataType_spec :
    (∀ s : String,
        startsWithChars s.data "TIMESTAMP".data = true
          ∨ startsWithChars s.data "INTERVAL DAY".data = true →
        normaliseOracleDataType s = String.mk (stripDigitParens s.data))
    ∧ (∀ s : String,
        startsWithChars s.data "TIMESTAMP".data = false →
        startsWithChars s.data "INTERVAL DAY".data = false →
        normaliseOracleDataType s = s)
    ∧ normaliseOracleDataType "TIMESTAMP(3) WITH TIME ZONE" = "TIMESTAMP WITH TIME ZONE"
    ∧ normaliseOracleDataType "INTERVAL DAY(5) TO SECOND(1)" = "INTERVAL DAY TO SECOND"
    ∧ normaliseOracleDataType "TIMESTAMP(0)" = "TIMESTAMP"
    ∧ normaliseOracleDataType "DATE" = "DATE" := by
  refine ⟨?_, ?_, by decide, by decide, by decide, by decide⟩
  · intro s hs
    unfold normaliseOracleDataType
    rw [if_pos]
    rcases hs with hs | hs <;> simp [hs]
  · intro s h1 h2
    unfold normaliseOracleDataType
    rw [if_neg]
    simp [h1, h2]

/-- C8 counterexample: type normalization is not idempotent on all strings.
On `TIMESTAMP(5(7))` the single left-to-right pass of
`re.sub(r"\([0-9]\)", r"", ...)` removes only `(7)`, yielding
`TIMESTAMP(5)`, which a second normalization strips further to `TIMESTAMP`. -/
theorem normaliseOracleDataType_not_idem :
    normaliseOracleDataType (normaliseOracleDataType "TIMESTAMP(5(7))")
      ≠ normaliseOracleDataType "TIMESTAMP(5(7))" := by decide

/-- C8 (amended): type normalization is idempotent on every input whose
normalized form contains no remaining `(<digit>)` qualifier — in particular on
every actual Oracle type string; in general a second application can strip
qualifiers that the first pass's non-overlapping scan left behind. -/
theorem normaliseOracleDataType_idem (s : String)
    (h : hasDigitParen (normaliseOracleDataType s).data = false) :
    normaliseOracleDataType (normaliseOracleDataType s) = normaliseOracleDataType s := by
  generalize hts : normaliseOracleDataType s = t at h ⊢
  cases t with
  | mk data =>
    unfold normaliseOracleDataType
    split
    · rw [show (String.mk data).data = data from rfl] at h
      rw [show (String.mk data).data = data from rfl]
      rw [stripDigitParens_of_not_has data h]
    · rfl

/-- C8 witness: idempotence at the test input `TIMESTAMP(3) WITH TIME ZONE`. -/
theorem normaliseOracleDataType_idem_witness :
    normaliseOracleDataType (normaliseOracleDataType "TIMESTAMP(3) WITH TIME ZONE")
      = normaliseOracleDataType "TIMESTAMP(3) WITH TIME ZONE" :=
  normaliseOracleDataType_idem "TIMESTAMP(3) WITH TIME ZONE" (by decide)

/-- C9: `_enclose_identifier(name, ch)` returns `ch + name + ch` verbatim for
any (nonempty) quote string, defaults to the double quote when the argument is
omitted, and `_qualified_name` returns `"schema"."table"` when enclosed and
`schema.table` otherwise, by pure string formatting. -/
theorem encloseIdentifier_qualifiedName_spec (name ch schema table : String)
    (hch : ch ≠ "") :
    encloseIdentifier name (some ch) = ch ++ name ++ ch
    ∧ encloseIdentifier name none = "\"" ++ name ++ "\""
    ∧ qualifiedName schema table true = "\"" ++ schema ++ "\"" ++ "." ++ ("\"" ++ table ++ "\"")
    ∧ qualifiedName schema table false = schema ++ "." ++ table := by
  refine ⟨?_, rfl, rfl, rfl⟩
  simp only [encloseIdentifier]
  rw [if_neg hch]

/-- C9 witness: the concrete identifier tests — case preserved, explicit and
defaulted quote characters, enclosed and plain qualified names. -/
theorem encloseIdentifier_qualifiedName_witness :
    encloseIdentifier "A" (some "'") = "'A'"
    ∧ encloseIdentifier "A" none = "\"A\""
    ∧ qualifiedName "SCHEMA1" "TABLE1" true = "\"SCHEMA1\".\"TABLE1\""
    ∧ qualifiedName "SCHEMA1" "TABLE1" false = "SCHEMA1.TABLE1" := by
  have h := encloseIdentifier_qualifiedName_spec "A" "'" "SCHEMA1" "TABLE1" (by decide)
  refine ⟨?_, ?_, ?_, ?_⟩
  · rw [h.1]; decide
  · rw [h.2.1]; decide
  · rw [h.2.2.1]; decide
  · rw [h.2.2.2]; decide

/-- C10: passing the empty string as the explicit quote character does not
disable quoting: `ch or '"'` treats the falsy empty string like an omitted
argument, so the identifier comes back wrapped in double quotes. -/
theorem encloseIdentifier_empty_quote (name : String) :
    encloseIdentifier name (some "") = "\"" ++ name ++ "\""
    ∧ encloseIdentifier name (some "") = encloseIdentifier name none :=
  ⟨rfl, rfl⟩

/-- Lookup after a Python dict assignment: the assigned key reads the new
value, every other key is unchanged. -/
theorem dictGet_pyDictInsert {α : Type} (d : List (String × α)) (k t : String)
    (v : α) :
    dictGet (pyDictInsert d k v) t = if k = t then some v else dictGet d t := by
  induction d with
  | nil => simp [pyDictInsert, dictGet]
  | cons p rest ih =>
    obtain ⟨k', v'⟩ := p
    rw [pyDictInsert]
    split
    · rename_i hk
      subst hk
      rw [dictGet, dictGet]
      by_cases ht : k' = t <;> simp [ht]
    · rename_i hk
      rw [dictGet, dictGet, ih]
      by_cases ht : k' = t
      · subst ht
        rw [if_pos rfl, if_pos rfl, if_neg (fun hh => hk hh.symm)]
      · rw [if_neg ht, if_neg ht]

/-- Lookup after the initial `{t: None for t in table_list}` pass. -/
theorem dictGet_foldl_none (l : List String)
    (d : List (String × Option (List String))) (t : String) :
    dictGet (l.foldl (fun d t => pyDictInsert d t none) d) t
      = if t ∈ l then some none else dictGet d t := by
  induction l generalizing d with
  | nil => simp
  | cons x xs ih =>
    rw [List.foldl_cons, ih, dictGet_pyDictInsert]
    by_cases hx : x = t
    · subst hx
      simp [List.mem_cons]
    · have htx : ¬ t = x := fun hh => hx hh.symm
      by_cases hm : t ∈ xs <;> simp [hx, hm, htx, List.mem_cons]

/-- Lookup after the pass overwriting the entries of tables whose primary-key
query returned rows. -/
theorem dictGet_foldl_pk (db : OracleDB) (l : List String)
    (d : List (String × Option (List String))) (t : String) :
    dictGet (l.foldl
        (fun d tb =>
          if db.pkColumns tb ≠ [] then pyDictInsert d tb (some (db.pkColumns tb))
          else d)
        d) t
      = if t ∈ l ∧ db.pkColumns t ≠ [] then some (some (db.pkColumns t))
        else dictGet d t := by
  induction l generalizing d with
  | nil => simp
  | cons x xs ih =>
    rw [List.foldl_cons]
    by_cases hp : db.pkColumns x = []
    · rw [if_neg (by simp [hp]), ih]
      by_cases hx : x = t
      · subst hx
        simp [List.mem_cons, hp]
      · have htx : ¬ t = x := fun hh => hx hh.symm
        by_cases hm : t ∈ xs <;> simp [hm, htx, List.mem_cons]
    · rw [if_pos (by simp [hp]), ih, dictGet_pyDictInsert]
      by_cases hx : x = t
      · subst hx
        by_cases hm : x ∈ xs <;> simp [hm, hp, List.mem_cons]
      · have htx : ¬ t = x := fun hh => hx hh.symm
        by_cases hm : t ∈ xs <;> simp [hm, hx, htx, List.mem_cons]

/-- The primary-key dict of `_get_primary_keys`, read back: tables of the list
map to their key-column list, or to `None` when the query returned no rows;
other strings are not keys of the dict. -/
theorem dictGet_getPrimaryKeys (db : OracleDB) (l : List String) (t : String) :
    dictGet (getPrimaryKeys db l) t
      = if t ∈ l then
          some (if db.pkColumns t = [] then none else some (db.pkColumns t))
        else none := by
  unfold getPrimaryKeys
  rw [dictGet_foldl_pk, dictGet_foldl_none]
  by_cases hm : t ∈ l <;> by_cases hp : db.pkColumns t = [] <;>
    simp [hm, hp, dictGet]

/-- C6: the mapping `_get_primary_keys` builds has exactly the tables of the
working table list as keys; a table whose enabled-primary-key query returns
columns maps to that column list (ordered by key position), a table without a
qualifying constraint maps to the absent marker `None`, and no table ever maps
to an empty sequence. -/
theorem getPrimaryKeys_spec (db : OracleDB) (tableList : List String)
    (t : String) :
    ((dictGet (getPrimaryKeys db tableList) t).isSome ↔ t ∈ tableList)
    ∧ (t ∈ tableList → db.pkColumns t ≠ [] →
        dictGet (getPrimaryKeys db tableList) t = some (some (db.pkColumns t)))
    ∧ (t ∈ tableList → db.pkColumns t = [] →
        dictGet (getPrimaryKeys db tableList) t = some none)
    ∧ dictGet (getPrimaryKeys db tableList) t ≠ some (some []) := by
  rw [dictGet_getPrimaryKeys]
  by_cases hm : t ∈ tableList <;> by_cases hp : db.pkColumns t = [] <;>
    simp [hm, hp]

/-- C6 witness: in the concrete database, `T1` (with enabled key `(ID, C2)`)
maps to its ordered key columns and `T2` (no primary key) maps to `None`. -/
theorem getPrimaryKeys_spec_witness :
    dictGet (getPrimaryKeys dbNumericPk ["T1", "T2"]) "T1" = some (some ["ID", "C2"])
    ∧ dictGet (getPrimaryKeys dbNumericPk ["T1", "T2"]) "T2" = some none := by
  have h1 := getPrimaryKeys_spec dbNumericPk ["T1", "T2"] "T1"
  have h2 := getPrimaryKeys_spec dbNumericPk ["T1", "T2"] "T2"
  exact ⟨(h1.2.1 (by decide) (by decide)).trans (by decide),
    h2.2.2.1 (by decide) (by decide)⟩

/-- Ordered insertion preserves membership. -/
theorem mem_orderedInsert (a x : String) (l : List String) :
    x ∈ orderedInsert a l ↔ x = a ∨ x ∈ l := by
  induction l with
  | nil => simp [orderedInsert]
  | cons b rest ih =>
    rw [orderedInsert]
    split
    · rw [List.mem_cons, ih, List.mem_cons]
      tauto
    · simp [List.mem_cons]

/-- The `ORDER BY` sort preserves membership. -/
theorem mem_sortStrings (x : String) (l : List String) :
    x ∈ sortStrings l ↔ x ∈ l := by
  induction l with
  | nil => simp [sortStrings]
  | cons a rest ih =>
    rw [sortStrings, mem_orderedInsert, List.mem_cons, ih]

/-- Ordered insertion never yields the empty list. -/
theorem orderedInsert_ne_nil (a : String) (l : List String) :
    orderedInsert a l ≠ [] := by
  cases l with
  | nil => simp [orderedInsert]
  | cons b rest =>
    rw [orderedInsert]
    split <;> simp

/-- The `ORDER BY` sort yields the empty list only for the empty list. -/
theorem sortStrings_eq_nil (l : List String) : sortStrings l = [] ↔ l = [] := by
  cases l with
  | nil => simp [sortStrings]
  | cons a rest =>
    rw [sortStrings]
    simp [orderedInsert_ne_nil]

/-- C5: a non-empty schema filter is matched case-insensitively against the
known user names — the resolved schema is one of `all_users` in its stored
case with the same upper-casing as the filter; a filter matching no known name
raises (the spec's `SchemaNotFoundError`); and an absent or empty filter
resolves to the connected user without raising. -/
theorem normaliseSchemaFilter_spec (db : OracleDB) (s : String) (hs : s ≠ "") :
    ((∀ u ∈ db.allUsers, upperStr u ≠ upperStr s) →
      normaliseSchemaFilter db (some s) = .error (.jdbcInputManagerException
        ("Schema filter does not match any Oracle schemas: " ++ s)))
    ∧ (∀ u : String, normaliseSchemaFilter db (some s) = .ok u →
        u ∈ db.allUsers ∧ upperStr u = upperStr s)
    ∧ ((∃ u ∈ db.allUsers, upperStr u = upperStr s) →
        ∃ u, normaliseSchemaFilter db (some s) = .ok u)
    ∧ normaliseSchemaFilter db none = .ok db.currentUser
    ∧ normaliseSchemaFilter db (some "") = .ok db.currentUser := by
  refine ⟨?_, ?_, ?_, rfl, rfl⟩
  · intro hnone
    have hfil : db.allUsers.filter (fun u => upperStr u = upperStr s) = [] := by
      rw [List.filter_eq_nil_iff]
      intro u hu
      simpa using hnone u hu
    simp only [normaliseSchemaFilter]
    rw [if_neg hs, hfil]
    rfl
  · intro u hu
    simp only [normaliseSchemaFilter] at hu
    rw [if_neg hs] at hu
    rcases hh : (sortStrings
        (db.allUsers.filter (fun u => upperStr u = upperStr s))).head? with _ | v
    · rw [hh] at hu
      simp at hu
    · rw [hh] at hu
      simp only [Except.ok.injEq] at hu
      subst hu
      have hmem := List.mem_of_mem_head? hh
      rw [mem_sortStrings, List.mem_filter] at hmem
      exact ⟨hmem.1, by simpa using hmem.2⟩
  · intro hex
    obtain ⟨u, hu, hup⟩ := hex
    have hmem : u ∈ sortStrings
        (db.allUsers.filter (fun u => upperStr u = upperStr s)) := by
      rw [mem_sortStrings, List.mem_filter]
      exact ⟨hu, by simpa using hup⟩
    simp only [normaliseSchemaFilter]
    rw [if_neg hs]
    rcases hh : (sortStrings
        (db.allUsers.filter (fun u => upperStr u = upperStr s))).head? with _ | v
    · rw [List.head?_eq_none_iff] at hh
      rw [hh] at hmem
      cases hmem
    · exact ⟨v, rfl⟩

/-- C5 witness: in the concrete database the filter `alice` resolves to the
stored name `Alice`, and that name is a known user upper-casing to the
filter. -/
theorem normaliseSchemaFilter_spec_witness :
    normaliseSchemaFilter dbNumericPk (some "alice") = .ok "Alice"
    ∧ "Alice" ∈ dbNumericPk.allUsers ∧ upperStr "Alice" = upperStr "alice" := by
  have h := normaliseSchemaFilter_spec dbNumericPk "alice" (by decide)
  have hok : normaliseSchemaFilter dbNumericPk (some "alice") = .ok "Alice" := by rfl
  exact ⟨hok, h.2.1 "Alice" hok⟩

/-- C2: `_define_read_partitioning` returns the absent marker when the row
count does not exceed the threshold; when the row count exceeds the threshold
and the first primary-key column normalises to `NUMBER` and both the MIN and
the MAX query return a row, it returns the plan whose partition count is the
partition-count algorithm applied to `(MIN, MAX, row_count_threshold)` and
whose bounds are those MIN/MAX values; and it returns the absent marker when
either bound query returns no row. -/
theorem defineReadPartitioning_spec (db : OracleDB) (tableList : List String)
    (table : String) (thr : ℤ) :
    (db.tableCount table ≤ thr →
      defineReadPartitioning db tableList table thr = .ok none)
    ∧ (∀ column rest lo hi, thr < db.tableCount table → table ∈ tableList →
        db.pkColumns table = column :: rest →
        getColumnDataType db table column = some "NUMBER" →
        db.minRow table column = some lo → db.maxRow table column = some hi →
        defineReadPartitioning db tableList table thr =
          (readPartitioningNumPartitions lo hi (.int thr)).map
            (fun n => some
              { partitionColumn := column
                numPartitions := n
                lowerBound := lo
                upperBound := hi
                comment := "Partitioning by NUMBER primary key column" }))
    ∧ (∀ column rest, thr < db.tableCount table → table ∈ tableList →
        db.pkColumns table = column :: rest →
        getColumnDataType db table column = some "NUMBER" →
        (db.minRow table column = none ∨ db.maxRow table column = none) →
        defineReadPartitioning db tableList table thr = .ok none) := by
  refine ⟨?_, ?_, ?_⟩
  · intro h1
    simp only [defineReadPartitioning]
    rw [if_neg (not_lt.mpr h1)]
  · intro column rest lo hi h1 hmem hpk hdt hlo hhi
    simp only [defineReadPartitioning]
    rw [if_pos h1, dictGet_getPrimaryKeys, if_pos hmem, hpk,
      if_neg (List.cons_ne_nil column rest)]
    simp only [Option.join, Option.some_bind, id_eq]
    rw [hdt]
    cases hr : readPartitioningNumPartitions lo hi (.int thr) <;>
      simp [hlo, hhi, hr, Except.map, Except.bind]
  · intro column rest h1 hmem hpk hdt hminmax
    simp only [defineReadPartitioning]
    rw [if_pos h1, dictGet_getPrimaryKeys, if_pos hmem, hpk,
      if_neg (List.cons_ne_nil column rest)]
    simp only [Option.join, Option.some_bind, id_eq]
    rw [hdt]
    rcases hminmax with hm | hm
    · cases hmax : db.maxRow table column <;> simp [hm, hmax]
    · cases hmin : db.minRow table column <;> simp [hm, hmin]

/-- C2 witness: end to end on the concrete database, `T1` (42 rows, threshold
10, `NUMBER` key `ID` ranging 1..100) yields the plan with
`ceil((100-1)/10) = 10` partitions and bounds 1 and 100. -/
theorem defineReadPartitioning_spec_witness :
    defineReadPartitioning dbNumericPk ["T1", "T2"] "T1" 10 =
      .ok (some { partitionColumn := "ID", numPartitions := 10,
                  lowerBound := .int 1, upperBound := .int 100,
                  comment := "Partitioning by NUMBER primary key column" }) := by
  have h := (defineReadPartitioning_spec dbNumericPk ["T1", "T2"] "T1" 10).2.1
    "ID" ["C2"] (.int 1) (.int 100) (by decide) (by decide) (by decide)
    (by decide) (by decide) (by decide)
  rw [h]
  have hnum : readPartitioningNumPartitions (.int 1) (.int 100) (.int 10)
      = .ok 10 := by
    unfold readPartitioningNumPartitions
    simp only [PyVal.toRat]
    have hceil : (⌈((((100 : ℤ) : ℚ)) - (((1 : ℤ) : ℚ))) / (((10 : ℤ) : ℚ))⌉ : ℤ)
        = 10 := by
      rw [Int.ceil_eq_iff]
      constructor <;> norm_num
    rw [hceil]
    norm_num
  rw [hnum]
  rfl

/-- C3: for a table whose row count exceeds the threshold,
`_define_read_partitioning` returns the absent marker when there is no primary
key; any plan it produces partitions on exactly the first primary-key column
(by key position); and a first key column whose normalised type is not
`NUMBER` yields the absent marker rather than an error. -/
theorem defineReadPartitioning_column_selection (db : OracleDB)
    (tableList : List String) (table : String) (thr : ℤ) :
    (thr < db.tableCount table → table ∈ tableList → db.pkColumns table = [] →
      defineReadPartitioning db tableList table thr = .ok none)
    ∧ (∀ column rest, thr < db.tableCount table → table ∈ tableList →
        db.pkColumns table = column :: rest →
        getColumnDataType db table column ≠ some "NUMBER" →
        defineReadPartitioning db tableList table thr = .ok none)
    ∧ (∀ plan, defineReadPartitioning db tableList table thr = .ok (some plan) →
        table ∈ tableList ∧
        ∃ rest, db.pkColumns table = plan.partitionColumn :: rest) := by
  refine ⟨?_, ?_, ?_⟩
  · intro h1 hmem hpk
    simp only [defineReadPartitioning]
    rw [if_pos h1, dictGet_getPrimaryKeys, if_pos hmem, hpk, if_pos rfl]
    rfl
  · intro column rest h1 hmem hpk hdt
    simp only [defineReadPartitioning]
    rw [if_pos h1, dictGet_getPrimaryKeys, if_pos hmem, hpk,
      if_neg (List.cons_ne_nil column rest)]
    simp only [Option.join, Option.some_bind, id_eq]
    rcases hdt' : getColumnDataType db table column with _ | dt
    · simp [hdt']
    · have hne : dt ≠ "NUMBER" := by
        intro hh
        exact hdt (by rw [hdt', hh])
      simp [hdt', hne]
  · intro plan hp
    simp only [defineReadPartitioning] at hp
    by_cases h1 : db.tableCount table > thr
    case neg =>
      rw [if_neg h1] at hp
      simp at hp
    rw [if_pos h1, dictGet_getPrimaryKeys] at hp
    by_cases hmem : table ∈ tableList
    case neg =>
      rw [if_neg hmem] at hp
      simp [Option.join, Option.some_bind, id_eq] at hp
    rw [if_pos hmem] at hp
    rcases hpklist : db.pkColumns table with _ | ⟨c, rest⟩
    · rw [hpklist, if_pos rfl] at hp
      simp [Option.join, Option.some_bind, id_eq] at hp
    · rw [hpklist, if_neg (List.cons_ne_nil c rest)] at hp
      simp only [Option.join, Option.some_bind, id_eq] at hp
      rcases hdt : getColumnDataType db table c with _ | dt
      · rw [hdt] at hp
        simp at hp
      · rw [hdt] at hp
        simp only [Option.join, Option.some_bind, id_eq] at hp
        by_cases hnum : dt = "NUMBER"
        case neg =>
          simp [hnum] at hp
        subst hnum
        rw [if_pos rfl] at hp
        rcases hmin : db.minRow table c with _ | lo <;>
          rcases hmax : db.maxRow table c with _ | hi <;>
          rw [hmin, hmax] at hp
        · simp at hp
        · simp at hp
        · simp at hp
        · cases hr : readPartitioningNumPartitions lo hi (.int thr)
          · simp [hr, Except.bind] at hp
          · simp only [hr, Except.bind, Except.ok.injEq, Option.some.injEq] at hp
            subst hp
            exact ⟨hmem, rest, rfl⟩

/-- C3 witness: in the concrete database whose large table `T1` has the text
primary-key column `NAME` (type `VARCHAR2`), no partitioning plan is
produced and no error is raised. -/
theorem defineReadPartitioning_column_selection_witness :
    defineReadPartitioning dbTextPk ["T1"] "T1" 10 = .ok none :=
  (defineReadPartitioning_column_selection dbTextPk ["T1"] "T1" 10).2.1 "NAME" []
    (by decide) (by decide) (by decide) (by decide)
